import Mathlib

set_option maxRecDepth 100000

/-!
Verification of the Pyth price validation and safe decimal-arithmetic engine
found in the repository (templates/anchor-oracle.rs and
examples/on-chain/price-validation.rs).

The Rust code is shallowly embedded: u64/u128 values become Nat with explicit
wrapping (mod 2^w) where the source can overflow in release builds, i32/i64/i128
values become Int with explicit two-complement wrapping and saturation helpers,
and fallible functions return Except.  Rust release builds wrap on arithmetic
overflow; a division by zero aborts, which is modelled by an explicit
DivByZeroPanic error value.
-/

namespace PythCore

def i64Min : Int := -(2 ^ 63)

def i64Max : Int := 2 ^ 63 - 1

/-- Two-complement wrap of an unbounded integer into the i32 range. -/
def wrapI32 (x : Int) : Int := (x + 2 ^ 31) % 2 ^ 32 - 2 ^ 31

/-- Two-complement wrap of an unbounded integer into the i64 range; this is
what a Rust `as i64` cast or a wrapping i64 operation produces. -/
def wrapI64 (x : Int) : Int := (x + 2 ^ 63) % 2 ^ 64 - 2 ^ 63

/-- Two-complement wrap of an unbounded integer into the i128 range. -/
def wrapI128 (x : Int) : Int := (x + 2 ^ 127) % 2 ^ 128 - 2 ^ 127

/-- Clamp at the i64 type limits; this is Rust saturating_add / saturating_sub
applied to the exact mathematical result. -/
def satI64 (x : Int) : Int := max i64Min (min i64Max x)

/-- A raw Pyth price sample (pyth_solana_receiver_sdk Price): price is i64,
conf is u64, exponent is i32, publish_time is i64 (unix seconds). -/
structure Price where
  price : Int
  conf : Nat
  exponent : Int
  publish_time : Int
  deriving DecidableEq

/-- Error codes of both source files (OracleError and PriceValidationError),
merged; DivByZeroPanic stands for a Rust division-by-zero abort. -/
inductive OracleError where
  | PriceTooStale
  | ConfidenceTooHigh
  | PriceBelowMinimum
  | PriceAboveMaximum
  | NegativePrice
  | ZeroPrice
  | MathOverflow
  | DivByZeroPanic
  deriving DecidableEq

/-- price_validation::ValidationConfig (price-validation.rs lines 31-40):
max_age_secs and max_confidence_bps are u64, the clamp bounds are optional
i64 values. -/
structure ValidationConfig where
  max_age_secs : Nat
  max_confidence_bps : Nat
  min_price : Option Int
  max_price : Option Int
  deriving DecidableEq

/-- The confidence-ratio computation of validate_price (price-validation.rs
lines 85-89): the u128 quotient conf * 10000 / |price| is narrowed to u64 with
an `as u64` cast (mod 2^64); a zero price yields u64::MAX. -/
def confidence_bps (p : Price) : Nat :=
  if p.price ≠ 0 then p.conf * 10000 % 2 ^ 128 / p.price.natAbs % 2 ^ 64
  else 2 ^ 64 - 1

/-- The optional minimum-price clamp of validate_price (lines 97-99). -/
def check_min_price (p : Price) (cfg : ValidationConfig) : Except OracleError Unit :=
  match cfg.min_price with
  | some m => if p.price < m then .error .PriceBelowMinimum else .ok ()
  | none => .ok ()

/-- The optional maximum-price clamp of validate_price (lines 101-103). -/
def check_max_price (p : Price) (cfg : ValidationConfig) : Except OracleError Unit :=
  match cfg.max_price with
  | some m => if m < p.price then .error .PriceAboveMaximum else .ok ()
  | none => .ok ()

/-- price_validation::validate_price (price-validation.rs lines 74-106).
The age subtraction is i64 arithmetic, wrapping in release builds; the
`price_age as u64` cast on a checked-nonnegative i64 is its toNat. -/
def validate_price (p : Price) (cfg : ValidationConfig) (now : Int) :
    Except OracleError Unit :=
  let price_age := wrapI64 (now - p.publish_time)
  if ¬ (0 ≤ price_age ∧ price_age.toNat ≤ cfg.max_age_secs) then
    .error .PriceTooStale
  else if ¬ (confidence_bps p ≤ cfg.max_confidence_bps) then
    .error .ConfidenceTooHigh
  else
    match check_min_price p cfg with
    | .error e => .error e
    | .ok _ =>
      check_max_price p cfg

/-- validate_confidence (anchor-oracle.rs lines 191-204): the u128 ratio is
compared against max_bps without narrowing; a zero price is ZeroPrice. -/
def validate_confidence (p : Price) (max_bps : Nat) : Except OracleError Unit :=
  if p.price = 0 then .error .ZeroPrice
  else
    let conf_bps := p.conf * 10000 % 2 ^ 128 / p.price.natAbs
    if ¬ (conf_bps ≤ max_bps) then .error .ConfidenceTooHigh else .ok ()

/-- ValidatedPrice (anchor-oracle.rs lines 108-121). -/
structure ValidatedPrice where
  price : Int
  conf : Nat
  exponent : Int
  publish_time : Int
  lower_bound : Int
  upper_bound : Int
  deriving DecidableEq

/-- ValidatedPrice::from_price (anchor-oracle.rs lines 125-135): the
`price.conf as i64` cast wraps, then the bounds use saturating add/sub. -/
def ValidatedPrice.from_price (p : Price) : ValidatedPrice :=
  let conf_i64 := wrapI64 (p.conf : Int)
  { price := p.price
    conf := p.conf
    exponent := p.exponent
    publish_time := p.publish_time
    lower_bound := satI64 (p.price - conf_i64)
    upper_bound := satI64 (p.price + conf_i64) }

/-- ValidatedPrice::price_with_sigma (anchor-oracle.rs lines 148-154):
half_width is the wrapping i64 product (conf as i64) * (sigma as i64); the
returned pair uses saturating sub/add around the mid price. -/
def ValidatedPrice.price_with_sigma (v : ValidatedPrice) (sigma : Nat) : Int × Int :=
  let half_width := wrapI64 (wrapI64 (v.conf : Int) * sigma)
  (satI64 (v.price - half_width), satI64 (v.price + half_width))

/-- safe_math::SafePrice (price-validation.rs lines 143-152). -/
structure SafePrice where
  lower : Int
  mid : Int
  upper : Int
  exponent : Int
  deriving DecidableEq

/-- SafePrice::from_pyth_price (price-validation.rs lines 155-163): the
`price.conf as i64` cast wraps, then the bounds use saturating add/sub. -/
def SafePrice.from_pyth_price (p : Price) : SafePrice :=
  let conf := wrapI64 (p.conf : Int)
  { lower := satI64 (p.price - conf)
    mid := p.price
    upper := satI64 (p.price + conf)
    exponent := p.exponent }

/-- SafePrice::price_with_sigma (price-validation.rs lines 176-184):
half_width is the plain (wrapping) i64 product (upper - mid) * sigma; the new
bounds are saturating around mid. -/
def SafePrice.price_with_sigma (s : SafePrice) (sigma : Nat) : SafePrice :=
  let half_width := wrapI64 (wrapI64 (s.upper - s.mid) * sigma)
  { lower := satI64 (s.mid - half_width)
    mid := s.mid
    upper := satI64 (s.mid + half_width)
    exponent := s.exponent }

/-- calculate_usd_value (anchor-oracle.rs lines 207-229).  The target scale is
fixed at 6 decimals.  The i32 expression 6 - token_decimals - price_exponent
wraps; u128 multiplications and 10u128.pow wrap mod 2^128 (the stepwise
wrapping products are congruent mod 2^128 to the single final wrap written
here); the final `value as u64` keeps the low 64 bits. -/
def calculate_usd_value (token_amount : Nat) (token_decimals : Nat)
    (price : Int) (price_exponent : Int) : Except OracleError Nat :=
  if ¬ (0 < price) then .error .NegativePrice
  else
    let amount := token_amount
    let price_val := price.toNat
    let exp_adjustment := wrapI32 (6 - (token_decimals : Int) - price_exponent)
    if 0 ≤ exp_adjustment then
      .ok (amount * price_val * 10 ^ exp_adjustment.toNat % 2 ^ 128 % 2 ^ 64)
    else
      let d := 10 ^ (-exp_adjustment).toNat % 2 ^ 128
      if d = 0 then .error .DivByZeroPanic
      else .ok (amount * price_val % 2 ^ 128 / d % 2 ^ 64)

/-- safe_math::calculate_value_usd (price-validation.rs lines 205-231).  The
i32 expression token_decimals + price.exponent - usd_decimals wraps; u128
products wrap mod 2^128; the final `value as u64` keeps the low 64 bits. -/
def calculate_value_usd (token_amount : Nat) (token_decimals : Nat)
    (p : Price) (usd_decimals : Nat) : Except OracleError Nat :=
  if ¬ (0 < p.price) then .error .NegativePrice
  else
    let amount := token_amount
    let price_val := p.price.toNat
    let exp_adjustment := wrapI32 ((token_decimals : Int) + p.exponent - usd_decimals)
    if 0 ≤ exp_adjustment then
      let d := 10 ^ exp_adjustment.toNat % 2 ^ 128
      if d = 0 then .error .DivByZeroPanic
      else .ok (amount * price_val % 2 ^ 128 / d % 2 ^ 64)
    else
      .ok (amount * price_val * 10 ^ (-exp_adjustment).toNat % 2 ^ 128 % 2 ^ 64)

/-- calculate_tokens_for_usd (anchor-oracle.rs lines 232-253; the version in
price-validation.rs lines 234-258 is identical up to taking a Price record). -/
def calculate_tokens_for_usd (usd_amount : Nat) (usd_decimals : Nat)
    (token_decimals : Nat) (price : Int) (price_exponent : Int) :
    Except OracleError Nat :=
  if ¬ (0 < price) then .error .NegativePrice
  else
    let usd := usd_amount
    let price_val := price.toNat
    let exp_adjustment :=
      wrapI32 ((usd_decimals : Int) - price_exponent - token_decimals)
    if 0 ≤ exp_adjustment then
      .ok (usd * 10 ^ exp_adjustment.toNat % 2 ^ 128 / price_val % 2 ^ 64)
    else
      let d := price_val * 10 ^ (-exp_adjustment).toNat % 2 ^ 128
      if d = 0 then .error .DivByZeroPanic
      else .ok (usd / d % 2 ^ 64)

/-- multi_price::calculate_price_ratio (price-validation.rs lines 283-308).
i128 products wrap mod 2^128 (signed); i128 division truncates toward zero
(Int.tdiv); the final `ratio as u64` on a checked-nonnegative i128 keeps the
low 64 bits. -/
def calculate_price_ratio (np dp : Price) (result_decimals : Nat) :
    Except OracleError Nat :=
  if ¬ (0 < dp.price) then .error .NegativePrice
  else
    let num := np.price
    let denom := dp.price
    let exp_diff := wrapI32 (np.exponent - dp.exponent)
    let ratioE : Except OracleError Int :=
      if 0 ≤ exp_diff then
        .ok (Int.tdiv (wrapI128 (num * 10 ^ result_decimals * 10 ^ exp_diff.toNat)) denom)
      else
        let d := wrapI128 (denom * 10 ^ (-exp_diff).toNat)
        if d = 0 then .error .DivByZeroPanic
        else .ok (Int.tdiv (wrapI128 (num * 10 ^ result_decimals)) d)
    match ratioE with
    | .error e => .error e
    | .ok r => if ¬ (0 ≤ r) then .error .NegativePrice else .ok ((r % 2 ^ 64).toNat)

/-- multi_price::calculate_twap (price-validation.rs lines 312-321).  The u16
subtraction 10000 - spot_weight_bps wraps mod 2^16; the weighted sum and the
division by 10000 happen in i128; the final `as i64` cast wraps. -/
def calculate_twap (spot ema : Price) (spot_weight_bps : Nat) : Int :=
  let spot_weight : Int := spot_weight_bps
  let ema_weight : Int := ((10000 + 2 ^ 16 - spot_weight_bps) % 2 ^ 16 : Nat)
  let weighted :=
    Int.tdiv (wrapI128 (spot.price * spot_weight + ema.price * ema_weight)) 10000
  wrapI64 weighted

/-- The rebasing formula exactly as the specification states it (spec section
4.1): adj = o_decimals - a_decimals - E; multiply A * P by 10 ^ adj when adj
is nonnegative, otherwise divide (truncating) by 10 ^ (-adj). -/
def rebaseSpec (A P : Nat) (adj : Int) : Nat :=
  if 0 ≤ adj then A * P * 10 ^ adj.toNat else A * P / 10 ^ (-adj).toNat

/-- The ratio formula of the code without any 128-bit wrapping: align the two
exponents, scale the numerator to result_decimals, divide truncating toward
zero. -/
def ratioSpec (np dp : Price) (result_decimals : Nat) : Int :=
  let ed := np.exponent - dp.exponent
  if 0 ≤ ed then
    Int.tdiv (np.price * 10 ^ result_decimals * 10 ^ ed.toNat) dp.price
  else
    Int.tdiv (np.price * 10 ^ result_decimals) (dp.price * 10 ^ (-ed).toNat)

end PythCore

deriving instance DecidableEq for Except

namespace PythCore

theorem wrapI32_eq_self {x : Int} (h1 : -(2 ^ 31) ≤ x) (h2 : x < 2 ^ 31) :
    wrapI32 x = x := by
  unfold wrapI32; omega

theorem wrapI64_eq_self {x : Int} (h1 : -(2 ^ 63) ≤ x) (h2 : x < 2 ^ 63) :
    wrapI64 x = x := by
  unfold wrapI64; omega

set_option maxRecDepth 8000 in
theorem wrapI128_eq_self {x : Int} (h1 : -(2 ^ 127) ≤ x) (h2 : x < 2 ^ 127) :
    wrapI128 x = x := by
  unfold wrapI128; omega

theorem satI64_eq_self {x : Int} (h1 : i64Min ≤ x) (h2 : x ≤ i64Max) :
    satI64 x = x := by
  simp only [satI64, i64Min, i64Max] at *; omega

theorem le_tdiv_of_mul_le {m S b : Int} (hb : 0 < b) (h : m * b ≤ S) :
    m ≤ Int.tdiv S b := by
  rcases le_or_lt 0 S with hS | hS
  · rw [Int.tdiv_eq_ediv hS hb.le]
    calc m = m * b / b := (Int.mul_ediv_cancel m hb.ne').symm
    _ ≤ S / b := Int.ediv_le_ediv hb h
  · have hS' : (0 : Int) ≤ -S := by omega
    have hrw : Int.tdiv S b = -Int.tdiv (-S) b := by
      rw [← Int.neg_tdiv, neg_neg]
    rw [hrw, Int.tdiv_eq_ediv hS' hb.le, le_neg]
    calc (-S) / b ≤ (-m * b) / b := Int.ediv_le_ediv hb (by nlinarith)
    _ = -m := Int.mul_ediv_cancel (-m) hb.ne'

theorem tdiv_le_of_le_mul {S M b : Int} (hb : 0 < b) (h : S ≤ M * b) :
    Int.tdiv S b ≤ M := by
  rcases le_or_lt 0 S with hS | hS
  · rw [Int.tdiv_eq_ediv hS hb.le]
    calc S / b ≤ (M * b) / b := Int.ediv_le_ediv hb h
    _ = M := Int.mul_ediv_cancel M hb.ne'
  · have hS' : (0 : Int) ≤ -S := by omega
    have hrw : Int.tdiv S b = -Int.tdiv (-S) b := by
      rw [← Int.neg_tdiv, neg_neg]
    rw [hrw, Int.tdiv_eq_ediv hS' hb.le, neg_le]
    calc (-M) = (-M * b) / b := (Int.mul_ediv_cancel (-M) hb.ne').symm
    _ ≤ (-S) / b := Int.ediv_le_ediv hb (by nlinarith)

theorem check_min_price_error {p : Price} {cfg : ValidationConfig} {e : OracleError}
    (h : check_min_price p cfg = .error e) : e = .PriceBelowMinimum := by
  unfold check_min_price at h
  split at h
  · split at h
    · cases h; rfl
    · cases h
  · cases h

theorem check_max_price_error {p : Price} {cfg : ValidationConfig} {e : OracleError}
    (h : check_max_price p cfg = .error e) : e = .PriceAboveMaximum := by
  unfold check_max_price at h
  split at h
  · split at h
    · cases h; rfl
    · cases h
  · cases h

/-- C1: the counterexample sample conf = 2 ^ 63 makes the `conf as i64` cast
wrap to the most negative i64, so the saturating bounds come out inverted:
lower_bound = i64 maximum is strictly above price = 0, and upper_bound is the
i64 minimum, in both implementations of the Bounds Engine. -/
theorem C1_bounds_ordering_violated_eval :
    (ValidatedPrice.from_price ⟨0, 2 ^ 63, -8, 0⟩).lower_bound = i64Max ∧
    (ValidatedPrice.from_price ⟨0, 2 ^ 63, -8, 0⟩).upper_bound = i64Min ∧
    ¬ ((ValidatedPrice.from_price ⟨0, 2 ^ 63, -8, 0⟩).lower_bound ≤
        (ValidatedPrice.from_price ⟨0, 2 ^ 63, -8, 0⟩).price) ∧
    ¬ ((SafePrice.from_pyth_price ⟨0, 2 ^ 63, -8, 0⟩).lower ≤
        (SafePrice.from_pyth_price ⟨0, 2 ^ 63, -8, 0⟩).mid) := by decide

/-- C2: the documented scenario (amount 1,000,000 at 6 decimals, price
25 x 10 ^ 8 at exponent -8, 6 output decimals) should give 25,000,000, but
both rebasing implementations flip the sign of the exponent contribution,
compute 2.5 x 10 ^ 23, and truncate it mod 2 ^ 64 to 9724313088156499968. -/
theorem C2_usd_value_scenario_eval :
    calculate_usd_value 1000000 6 2500000000 (-8) = .ok 9724313088156499968 ∧
    calculate_value_usd 1000000 6 ⟨2500000000, 0, -8, 0⟩ 6 = .ok 9724313088156499968 ∧
    (9724313088156499968 : Nat) ≠ 25000000 := by decide

/-- C6: the rebasing operation narrows with a plain `as u64` cast and wraps
the power of ten, so an out-of-range result is silently truncated instead of
failing with Overflow: 10 ^ 19 tokens at price 10 give the mathematical value
10 ^ 26, yet the call returns Ok of 10 ^ 26 mod 2 ^ 64, and an exponent of
-130 makes the power of ten wrap mod 2 ^ 128 inside an Ok result. -/
theorem C6_overflow_silent_truncation_eval :
    calculate_usd_value (10 ^ 19) 0 10 0 = .ok 15908979783594147840 ∧
    (15908979783594147840 : Nat) ≠ 10 ^ 19 * 10 * 10 ^ 6 ∧
    calculate_usd_value 1 0 1 (-130) = .ok (10 ^ 136 % 2 ^ 128 % 2 ^ 64) := by decide

theorem validate_price_stale_iff (p : Price) (cfg : ValidationConfig) (now : Int) :
    validate_price p cfg now = .error .PriceTooStale ↔
      ¬ (0 ≤ wrapI64 (now - p.publish_time) ∧
         (wrapI64 (now - p.publish_time)).toNat ≤ cfg.max_age_secs) := by
  simp only [validate_price]
  split
  · rename_i h
    exact iff_of_true rfl h
  · rename_i h
    apply iff_of_false _ (not_not.mp (not_not_intro h))
    split
    · simp
    · split
      · rename_i e heq
        intro hc
        cases hc
        exact absurd (check_min_price_error heq) (by decide)
      · intro hc
        exact absurd (check_max_price_error hc) (by decide)

theorem validate_price_conf_iff (p : Price) (cfg : ValidationConfig) (now : Int)
    (hage : 0 ≤ wrapI64 (now - p.publish_time) ∧
      (wrapI64 (now - p.publish_time)).toNat ≤ cfg.max_age_secs) :
    validate_price p cfg now = .error .ConfidenceTooHigh ↔
      cfg.max_confidence_bps < confidence_bps p := by
  simp only [validate_price]
  rw [if_neg (not_not_intro hage)]
  split
  · rename_i h
    exact iff_of_true rfl (by omega)
  · rename_i h
    apply iff_of_false _ (by omega)
    split
    · rename_i e heq
      intro hc
      cases hc
      exact absurd (check_min_price_error heq) (by decide)
    · intro hc
      exact absurd (check_max_price_error hc) (by decide)

/-- C4: counterexample to the universal claim: with a policy allowing a huge
max age, a sample from the far future makes the i64 age subtraction wrap to a
large positive number, and validation succeeds even though the mathematical
age is negative, which the claim says must fail with StalePrice. -/
theorem C4_age_wraparound_counterexample :
    validate_price ⟨100, 0, 0, 1⟩ ⟨2 ^ 64 - 1, 10000, none, none⟩ (-(2 ^ 63)) = .ok () ∧
    (-(2 ^ 63) : Int) - (⟨100, 0, 0, 1⟩ : Price).publish_time < 0 := by decide

/-- C4 amended: whenever the subtraction now - publish_time is representable
in i64 (no wraparound), the Validator fails with StalePrice exactly when the
age is negative or exceeds max_age_seconds; in particular the boundary cases
behave as the claim states. -/
theorem C4_age_boundary_amended (p : Price) (cfg : ValidationConfig) (now : Int)
    (h1 : i64Min ≤ now - p.publish_time) (h2 : now - p.publish_time ≤ i64Max) :
    validate_price p cfg now = .error .PriceTooStale ↔
      (now - p.publish_time < 0 ∨ (cfg.max_age_secs : Int) < now - p.publish_time) := by
  have hw : wrapI64 (now - p.publish_time) = now - p.publish_time := by
    apply wrapI64_eq_self
    · simp only [i64Min] at h1; omega
    · simp only [i64Max] at h2; omega
  rw [validate_price_stale_iff, hw]
  omega

/-- C4 witness: age 61 against max age 60 is stale. -/
theorem C4_age_boundary_witness :
    validate_price ⟨100, 0, 0, 0⟩ ⟨60, 200, none, none⟩ 61 = .error .PriceTooStale :=
  (C4_age_boundary_amended ⟨100, 0, 0, 0⟩ ⟨60, 200, none, none⟩ 61 (by decide)
    (by decide)).mpr (by decide)

/-- C5: counterexample to the guaranteed-rejection part of the claim: a zero
price makes the code set the ratio to u64::MAX, but a policy with
max_confidence_ratio = u64::MAX then accepts the sample, so a zero price is
not guaranteed to be rejected. -/
theorem C5_zero_price_counterexample :
    validate_price ⟨0, 7, -8, 0⟩ ⟨60, 2 ^ 64 - 1, none, none⟩ 0 = .ok () ∧
    (⟨0, 7, -8, 0⟩ : Price).price = 0 := by decide

/-- C5 amended: for samples passing the age check, validation fails with
ConfidenceTooHigh exactly when the 128-bit ratio confidence x 10000 / |price|
truncated to u64 (u64::MAX when price = 0) exceeds max_confidence_ratio; the
concrete 50-bps scenario passes at threshold 100 and fails at threshold 40. -/
theorem C5_confidence_check_amended (p : Price) (cfg : ValidationConfig) (now : Int)
    (hage : 0 ≤ wrapI64 (now - p.publish_time) ∧
      (wrapI64 (now - p.publish_time)).toNat ≤ cfg.max_age_secs) :
    (validate_price p cfg now = .error .ConfidenceTooHigh ↔
      cfg.max_confidence_bps < confidence_bps p) ∧
    confidence_bps ⟨10000000, 50000, -8, 0⟩ = 50 ∧
    validate_price ⟨10000000, 50000, -8, 0⟩ ⟨60, 100, none, none⟩ 0 = .ok () ∧
    validate_price ⟨10000000, 50000, -8, 0⟩ ⟨60, 40, none, none⟩ 0 =
      .error .ConfidenceTooHigh :=
  ⟨validate_price_conf_iff p cfg now hage, by decide, by decide, by decide⟩

/-- C5 witness: the 50-bps sample against threshold 40 is rejected. -/
theorem C5_confidence_check_witness :
    validate_price ⟨10000000, 50000, -8, 0⟩ ⟨60, 40, none, none⟩ 0 =
      .error .ConfidenceTooHigh :=
  ((C5_confidence_check_amended ⟨10000000, 50000, -8, 0⟩ ⟨60, 40, none, none⟩ 0
    (by decide)).1).mpr (by decide)

theorem calculate_usd_value_eq (A a : Nat) (P E : Int)
    (hA : A < 2 ^ 64) (ha : a ≤ 255)
    (hP0 : 0 < P) (hP : P ≤ i64Max)
    (hElo : -(2 ^ 30) ≤ E) (hEhi : E ≤ 2 ^ 30)
    (hm : 0 ≤ 6 - (a : Int) - E →
      A * P.toNat * 10 ^ (6 - (a : Int) - E).toNat < 2 ^ 64)
    (hd : 6 - (a : Int) - E < 0 → (-(6 - (a : Int) - E)).toNat ≤ 38 ∧
      A * P.toNat / 10 ^ (-(6 - (a : Int) - E)).toNat < 2 ^ 64) :
    calculate_usd_value A a P E = .ok (rebaseSpec A P.toNat (6 - a - E)) := by
  have hPn : P.toNat ≤ 2 ^ 63 - 1 := by simp only [i64Max] at hP; omega
  have hAP : A * P.toNat < 2 ^ 128 := by
    calc A * P.toNat ≤ (2 ^ 64 - 1) * (2 ^ 63 - 1) := Nat.mul_le_mul (by omega) hPn
    _ < 2 ^ 128 := by norm_num
  have hw : wrapI32 (6 - (a : Int) - E) = 6 - (a : Int) - E :=
    wrapI32_eq_self (by omega) (by omega)
  simp only [calculate_usd_value, rebaseSpec, hw]
  rw [if_neg (not_not_intro hP0)]
  by_cases hadj : 0 ≤ 6 - (a : Int) - E
  · rw [if_pos hadj, if_pos hadj]
    have h1 := hm hadj
    rw [Nat.mod_eq_of_lt (lt_trans h1 (by norm_num)), Nat.mod_eq_of_lt h1]
  · rw [if_neg hadj, if_neg hadj]
    obtain ⟨hk, hq⟩ := hd (by omega)
    have hpow : (10 : Nat) ^ (-(6 - (a : Int) - E)).toNat < 2 ^ 128 := by
      calc (10 : Nat) ^ (-(6 - (a : Int) - E)).toNat ≤ 10 ^ 38 :=
        Nat.pow_le_pow_right (by norm_num) hk
      _ < 2 ^ 128 := by norm_num
    rw [Nat.mod_eq_of_lt hpow,
      if_neg (pow_pos (by norm_num : (0 : Nat) < 10) _).ne',
      Nat.mod_eq_of_lt hAP, Nat.mod_eq_of_lt hq]

theorem calculate_value_usd_eq (A a o c : Nat) (P E pt : Int)
    (hA : A < 2 ^ 64) (ha : a ≤ 255) (ho : o ≤ 255)
    (hP0 : 0 < P) (hP : P ≤ i64Max)
    (hElo : -(2 ^ 30) ≤ E) (hEhi : E ≤ 2 ^ 30)
    (hm : 0 ≤ (o : Int) - a - E →
      A * P.toNat * 10 ^ ((o : Int) - a - E).toNat < 2 ^ 64)
    (hd : (o : Int) - a - E < 0 → (-((o : Int) - a - E)).toNat ≤ 38 ∧
      A * P.toNat / 10 ^ (-((o : Int) - a - E)).toNat < 2 ^ 64) :
    calculate_value_usd A a ⟨P, c, E, pt⟩ o =
      .ok (rebaseSpec A P.toNat ((o : Int) - a - E)) := by
  have hPn : P.toNat ≤ 2 ^ 63 - 1 := by simp only [i64Max] at hP; omega
  have hAP : A * P.toNat < 2 ^ 128 := by
    calc A * P.toNat ≤ (2 ^ 64 - 1) * (2 ^ 63 - 1) := Nat.mul_le_mul (by omega) hPn
    _ < 2 ^ 128 := by norm_num
  have hw : wrapI32 ((a : Int) + E - o) = (a : Int) + E - o :=
    wrapI32_eq_self (by omega) (by omega)
  simp only [calculate_value_usd, rebaseSpec, hw]
  rw [if_neg (not_not_intro hP0)]
  by_cases hc2 : 0 ≤ (a : Int) + E - o
  · -- the code divides; the spec-side adjustment is ≤ 0
    rw [if_pos hc2]
    by_cases hz : (o : Int) - a - E = 0
    · have he0 : ((a : Int) + E - o).toNat = 0 := by omega
      have h1 := hm (by omega)
      rw [(by omega : ((o : Int) - (a : Nat) - E).toNat = 0)] at h1
      rw [he0, if_pos (by omega : 0 ≤ (o : Int) - (a : Nat) - E),
        (by omega : ((o : Int) - (a : Nat) - E).toNat = 0)]
      simp only [pow_zero, Nat.mod_one, mul_one]
      rw [Nat.mod_eq_of_lt (by norm_num : (1 : Nat) < 2 ^ 128),
        if_neg (by norm_num : ¬ (1 : Nat) = 0),
        Nat.mod_eq_of_lt hAP, Nat.div_one]
      rw [pow_zero, mul_one] at h1
      rw [Nat.mod_eq_of_lt h1]
    · -- the spec-side adjustment is strictly negative
      have hadj : (o : Int) - a - E < 0 := by omega
      obtain ⟨hk, hq⟩ := hd hadj
      have he : ((a : Int) + E - o).toNat = (-((o : Int) - (a : Nat) - E)).toNat := by
        omega
      have hpow : (10 : Nat) ^ (-((o : Int) - (a : Nat) - E)).toNat < 2 ^ 128 := by
        calc (10 : Nat) ^ (-((o : Int) - (a : Nat) - E)).toNat ≤ 10 ^ 38 :=
          Nat.pow_le_pow_right (by norm_num) hk
        _ < 2 ^ 128 := by norm_num
      rw [he, if_neg (by omega : ¬ 0 ≤ (o : Int) - (a : Nat) - E),
        Nat.mod_eq_of_lt hpow,
        if_neg (pow_pos (by norm_num : (0 : Nat) < 10) _).ne',
        Nat.mod_eq_of_lt hAP, Nat.mod_eq_of_lt hq]
  · -- the code multiplies; the spec-side adjustment is positive
    have hadj : 0 ≤ (o : Int) - a - E := by omega
    have h1 := hm hadj
    have he : (-((a : Int) + E - o)).toNat = ((o : Int) - (a : Nat) - E).toNat := by
      omega
    rw [if_neg hc2, he, if_pos hadj,
      Nat.mod_eq_of_lt (lt_trans h1 (by norm_num)), Nat.mod_eq_of_lt h1]

/-- C3: both rebasing implementations compute adj = o_decimals - a_decimals -
E (with o fixed at 6 in the anchor template) and return (A x P) x 10 ^ adj
for nonnegative adj and the truncated quotient (A x P) / 10 ^ (-adj)
otherwise, multiplying before dividing in the 128-bit intermediate; stated
for all inputs whose intermediates stay inside the wide type and whose result
fits the u64 output. -/
theorem C3_rebasing_formula (A a o c : Nat) (P E pt : Int)
    (hA : A < 2 ^ 64) (ha : a ≤ 255) (ho : o ≤ 255)
    (hP0 : 0 < P) (hP : P ≤ i64Max)
    (hElo : -(2 ^ 30) ≤ E) (hEhi : E ≤ 2 ^ 30)
    (hm6 : 0 ≤ 6 - (a : Int) - E →
      A * P.toNat * 10 ^ (6 - (a : Int) - E).toNat < 2 ^ 64)
    (hd6 : 6 - (a : Int) - E < 0 → (-(6 - (a : Int) - E)).toNat ≤ 38 ∧
      A * P.toNat / 10 ^ (-(6 - (a : Int) - E)).toNat < 2 ^ 64)
    (hmo : 0 ≤ (o : Int) - a - E →
      A * P.toNat * 10 ^ ((o : Int) - a - E).toNat < 2 ^ 64)
    (hdo : (o : Int) - a - E < 0 → (-((o : Int) - a - E)).toNat ≤ 38 ∧
      A * P.toNat / 10 ^ (-((o : Int) - a - E)).toNat < 2 ^ 64) :
    calculate_usd_value A a P E = .ok (rebaseSpec A P.toNat (6 - a - E)) ∧
    calculate_value_usd A a ⟨P, c, E, pt⟩ o =
      .ok (rebaseSpec A P.toNat ((o : Int) - a - E)) :=
  ⟨calculate_usd_value_eq A a P E hA ha hP0 hP hElo hEhi hm6 hd6,
   calculate_value_usd_eq A a o c P E pt hA ha ho hP0 hP hElo hEhi hmo hdo⟩

/-- C3 witness: 2 units at price 3 with exponent 0 rebase to 6,000,000 at 6
output decimals in both implementations. -/
theorem C3_rebasing_formula_witness :
    calculate_usd_value 2 0 3 0 = .ok 6000000 ∧
    calculate_value_usd 2 0 ⟨3, 0, 0, 0⟩ 6 = .ok 6000000 := by
  have h := C3_rebasing_formula 2 0 6 0 3 0 0 (by decide) (by decide) (by decide)
    (by decide) (by decide) (by decide) (by decide) (by decide) (by decide)
    (by decide) (by decide)
  exact ⟨h.1.trans (by decide), h.2.trans (by decide)⟩

/-- C8: the round trip of the documented scenario is wildly divergent, not
within one unit: amount 1,000,000 converts forward to 9724313088156499968
(the truncated 2.5 x 10 ^ 23) and back to 388972523526259998 tokens. -/
theorem C8_roundtrip_divergent_eval :
    calculate_usd_value 1000000 6 2500000000 (-8) = .ok 9724313088156499968 ∧
    calculate_tokens_for_usd 9724313088156499968 6 6 2500000000 (-8) =
      .ok 388972523526259998 ∧
    1000000 + 1 < 388972523526259998 := by decide

/-- C7: counterexample to the exact-doubling claim: for the sample with price
2 ^ 62 and confidence 2 ^ 62 - 1 the two-sigma upper bound saturates at the
i64 maximum, so the two-sigma half-width equals the one-sigma half-width
instead of being exactly twice it. -/
theorem C7_sigma_doubling_counterexample :
    ((SafePrice.from_pyth_price
        ⟨4611686018427387904, 4611686018427387903, -8, 0⟩).price_with_sigma 2).upper -
      ((SafePrice.from_pyth_price
        ⟨4611686018427387904, 4611686018427387903, -8, 0⟩).price_with_sigma 2).mid ≠
    2 * (((SafePrice.from_pyth_price
        ⟨4611686018427387904, 4611686018427387903, -8, 0⟩).price_with_sigma 1).upper -
      ((SafePrice.from_pyth_price
        ⟨4611686018427387904, 4611686018427387903, -8, 0⟩).price_with_sigma 1).mid) := by
  decide

/-- C7 amended: price_with_sigma returns the saturating pair around mid with
half-width n x (upper - mid) (example file) or n x conf (anchor template)
provided the half-width product itself stays in i64, and the two-sigma
half-width is exactly twice the one-sigma half-width provided neither bound
saturates. -/
theorem C7_sigma_scaling_amended (s : SafePrice) (v : ValidatedPrice) (n : Nat)
    (hn : n ≤ 255) :
    (0 ≤ s.upper - s.mid → (s.upper - s.mid) * n ≤ i64Max →
      s.price_with_sigma n =
        { lower := satI64 (s.mid - (s.upper - s.mid) * n), mid := s.mid,
          upper := satI64 (s.mid + (s.upper - s.mid) * n), exponent := s.exponent }) ∧
    (0 ≤ s.upper - s.mid → i64Min ≤ s.mid - 2 * (s.upper - s.mid) →
      s.mid + 2 * (s.upper - s.mid) ≤ i64Max →
      ((s.price_with_sigma 2).upper - (s.price_with_sigma 2).mid =
        2 * ((s.price_with_sigma 1).upper - (s.price_with_sigma 1).mid) ∧
       (s.price_with_sigma 2).mid - (s.price_with_sigma 2).lower =
        2 * ((s.price_with_sigma 1).mid - (s.price_with_sigma 1).lower))) ∧
    ((v.conf : Int) * n ≤ i64Max →
      v.price_with_sigma n =
        (satI64 (v.price - (v.conf : Int) * n), satI64 (v.price + (v.conf : Int) * n))) := by
  refine ⟨?_, ?_, ?_⟩
  · intro hdiff hmul
    match n with
    | 0 =>
      simp only [SafePrice.price_with_sigma, Nat.cast_zero, mul_zero]
      norm_num [wrapI64]
    | Nat.succ m =>
      have hk0 : 0 ≤ (s.upper - s.mid) * ((Nat.succ m : Nat) : Int) :=
        mul_nonneg hdiff (by positivity)
      have hDle : s.upper - s.mid ≤ (s.upper - s.mid) * ((Nat.succ m : Nat) : Int) :=
        le_mul_of_one_le_right hdiff (by push_cast; omega)
      have hw1 : wrapI64 (s.upper - s.mid) = s.upper - s.mid := by
        apply wrapI64_eq_self
        · omega
        · simp only [i64Max] at hmul; omega
      have hw2 : wrapI64 ((s.upper - s.mid) * ((Nat.succ m : Nat) : Int)) =
          (s.upper - s.mid) * ((Nat.succ m : Nat) : Int) := by
        apply wrapI64_eq_self
        · omega
        · simp only [i64Max] at hmul; omega
      simp only [SafePrice.price_with_sigma, hw1, hw2]
  · intro hdiff hlo hhi
    have hDhi : s.upper - s.mid ≤ 2 ^ 62 - 1 := by
      simp only [i64Min, i64Max] at hlo hhi; omega
    have hw1 : wrapI64 (s.upper - s.mid) = s.upper - s.mid :=
      wrapI64_eq_self (by omega) (by omega)
    have hwa : wrapI64 ((s.upper - s.mid) * ((2 : Nat) : Int)) =
        (s.upper - s.mid) * ((2 : Nat) : Int) :=
      wrapI64_eq_self (by push_cast; omega) (by push_cast; omega)
    have hwb : wrapI64 ((s.upper - s.mid) * ((1 : Nat) : Int)) =
        (s.upper - s.mid) * ((1 : Nat) : Int) :=
      wrapI64_eq_self (by push_cast; omega) (by push_cast; omega)
    simp only [SafePrice.price_with_sigma, hw1, hwa, hwb, satI64, i64Min, i64Max]
    push_cast
    simp only [i64Min, i64Max] at hlo hhi
    constructor <;> omega
  · intro hmul
    match n with
    | 0 =>
      simp only [ValidatedPrice.price_with_sigma, Nat.cast_zero, mul_zero]
      norm_num [wrapI64]
    | Nat.succ m =>
      have hc0 : (0 : Int) ≤ (v.conf : Int) := by positivity
      have hk0 : 0 ≤ (v.conf : Int) * ((Nat.succ m : Nat) : Int) :=
        mul_nonneg hc0 (by positivity)
      have hDle : (v.conf : Int) ≤ (v.conf : Int) * ((Nat.succ m : Nat) : Int) :=
        le_mul_of_one_le_right hc0 (by push_cast; omega)
      have hw1 : wrapI64 (v.conf : Int) = (v.conf : Int) := by
        apply wrapI64_eq_self
        · omega
        · simp only [i64Max] at hmul; omega
      have hw2 : wrapI64 ((v.conf : Int) * ((Nat.succ m : Nat) : Int)) =
          (v.conf : Int) * ((Nat.succ m : Nat) : Int) := by
        apply wrapI64_eq_self
        · omega
        · simp only [i64Max] at hmul; omega
      simp only [ValidatedPrice.price_with_sigma, hw1, hw2]

/-- C7 witness: a small sample with half-width 5 doubles exactly. -/
theorem C7_sigma_scaling_witness :
    ((⟨95, 100, 105, -8⟩ : SafePrice).price_with_sigma 2).upper -
      ((⟨95, 100, 105, -8⟩ : SafePrice).price_with_sigma 2).mid =
    2 * (((⟨95, 100, 105, -8⟩ : SafePrice).price_with_sigma 1).upper -
      ((⟨95, 100, 105, -8⟩ : SafePrice).price_with_sigma 1).mid) :=
  ((C7_sigma_scaling_amended ⟨95, 100, 105, -8⟩ ⟨100, 5, -8, 0, 95, 105⟩ 2
    (by decide)).2.1 (by decide) (by decide) (by decide)).1

/-- C9: the weighted blend returns exactly (p1 x w + p2 x (10000 - w)) /
10000 computed in the 128-bit intermediate with truncating division, and the
result lies between the two input prices, so the final narrowing back to i64
loses no information. -/
theorem C9_twap_blend (p1 p2 : Price) (w : Nat) (hw : w ≤ 10000)
    (h1lo : i64Min ≤ p1.price) (h1hi : p1.price ≤ i64Max)
    (h2lo : i64Min ≤ p2.price) (h2hi : p2.price ≤ i64Max) :
    calculate_twap p1 p2 w =
      Int.tdiv (p1.price * w + p2.price * (10000 - (w : Int))) 10000 ∧
    min p1.price p2.price ≤ calculate_twap p1 p2 w ∧
    calculate_twap p1 p2 w ≤ max p1.price p2.price := by
  have hema : ((((10000 + 2 ^ 16 - w) % 2 ^ 16 : Nat)) : Int) = 10000 - (w : Int) := by
    omega
  set S := p1.price * (w : Int) + p2.price * (10000 - (w : Int)) with hS
  have hmin : min p1.price p2.price * 10000 ≤ S := by
    have a1 : 0 ≤ (p1.price - min p1.price p2.price) * (w : Int) :=
      mul_nonneg (by omega) (by positivity)
    have a2 : 0 ≤ (p2.price - min p1.price p2.price) * (10000 - (w : Int)) :=
      mul_nonneg (by omega) (by omega)
    nlinarith [a1, a2]
  have hmax : S ≤ max p1.price p2.price * 10000 := by
    have a1 : 0 ≤ (max p1.price p2.price - p1.price) * (w : Int) :=
      mul_nonneg (by omega) (by positivity)
    have a2 : 0 ≤ (max p1.price p2.price - p2.price) * (10000 - (w : Int)) :=
      mul_nonneg (by omega) (by omega)
    nlinarith [a1, a2]
  have hwrap : wrapI128 S = S := by
    apply wrapI128_eq_self
    · simp only [i64Min] at h1lo h2lo; omega
    · simp only [i64Max] at h1hi h2hi; omega
  have htd1 : min p1.price p2.price ≤ Int.tdiv S 10000 :=
    le_tdiv_of_mul_le (by norm_num) hmin
  have htd2 : Int.tdiv S 10000 ≤ max p1.price p2.price :=
    tdiv_le_of_le_mul (by norm_num) hmax
  have hres : wrapI64 (Int.tdiv S 10000) = Int.tdiv S 10000 := by
    apply wrapI64_eq_self
    · simp only [i64Min] at h1lo h2lo; omega
    · simp only [i64Max] at h1hi h2hi; omega
  have hct : calculate_twap p1 p2 w = Int.tdiv S 10000 := by
    simp only [calculate_twap, hema, ← hS, hwrap, hres]
  exact ⟨hct, hct ▸ htd1, hct ▸ htd2⟩

/-- C9 witness: blending 100 and 200 with weight 2500 bps gives 175, between
the two inputs. -/
theorem C9_twap_blend_witness :
    calculate_twap ⟨100, 0, 0, 0⟩ ⟨200, 0, 0, 0⟩ 2500 = 175 := by
  have h := C9_twap_blend ⟨100, 0, 0, 0⟩ ⟨200, 0, 0, 0⟩ 2500 (by decide) (by decide)
    (by decide) (by decide) (by decide)
  exact h.1.trans (by decide)

/-- C10: counterexample: numerator -1 against denominator 2 truncates the
quotient toward zero to 0, which passes the nonnegativity check, so the call
succeeds instead of failing with NegativePrice as the claim requires for a
negative numerator and positive denominator. -/
theorem C10_ratio_negative_counterexample :
    calculate_price_ratio ⟨-1, 0, 0, 0⟩ ⟨2, 0, 0, 0⟩ 0 = .ok 0 ∧
    (⟨-1, 0, 0, 0⟩ : Price).price < 0 ∧ 0 < (⟨2, 0, 0, 0⟩ : Price).price := by decide

/-- C10 amended: with a positive denominator and intermediates inside i128,
the ratio operation fails with NegativePrice exactly when the truncated
exponent-aligned quotient is negative (a negative numerator whose quotient
truncates to zero succeeds with 0), and on success it returns that exact
quotient whenever it fits in u64. -/
theorem C10_ratio_amended (np dp : Price) (rd : Nat)
    (hd : 0 < dp.price)
    (hedlo : -(2 ^ 30) ≤ np.exponent - dp.exponent)
    (hedhi : np.exponent - dp.exponent ≤ 2 ^ 30)
    (hnum : np.price.natAbs * 10 ^ rd ≤ 2 ^ 100)
    (hpos : 0 ≤ np.exponent - dp.exponent →
      np.price.natAbs * 10 ^ rd * 10 ^ (np.exponent - dp.exponent).toNat < 2 ^ 127)
    (hneg : np.exponent - dp.exponent < 0 →
      dp.price.toNat * 10 ^ (-(np.exponent - dp.exponent)).toNat < 2 ^ 127) :
    (calculate_price_ratio np dp rd = .error .NegativePrice ↔ ratioSpec np dp rd < 0) ∧
    (0 ≤ ratioSpec np dp rd → ratioSpec np dp rd < 2 ^ 64 →
      calculate_price_ratio np dp rd = .ok (ratioSpec np dp rd).toNat) := by
  have hw32 : wrapI32 (np.exponent - dp.exponent) = np.exponent - dp.exponent :=
    wrapI32_eq_self (by omega) (by omega)
  by_cases hed : 0 ≤ np.exponent - dp.exponent
  · have hb : (np.price * 10 ^ rd * 10 ^ (np.exponent - dp.exponent).toNat).natAbs
        < 2 ^ 127 := by
      rw [Int.natAbs_mul, Int.natAbs_mul, Int.natAbs_pow, Int.natAbs_pow,
        (rfl : (10 : Int).natAbs = 10)]
      exact hpos hed
    have hwr : wrapI128 (np.price * 10 ^ rd * 10 ^ (np.exponent - dp.exponent).toNat)
        = np.price * 10 ^ rd * 10 ^ (np.exponent - dp.exponent).toNat := by
      apply wrapI128_eq_self
      · omega
      · omega
    simp only [calculate_price_ratio, ratioSpec, hw32, if_neg (not_not_intro hd),
      if_pos hed, hwr]
    set r := Int.tdiv (np.price * 10 ^ rd * 10 ^ (np.exponent - dp.exponent).toNat)
      dp.price with hr
    constructor
    · split
      · rename_i h
        exact iff_of_true rfl (by omega)
      · rename_i h
        exact iff_of_false (by intro hc; cases hc) (by omega)
    · intro h0 h64
      rw [if_neg (not_not_intro h0)]
      congr 1
      omega
  · have hk := hneg (by omega)
    have hbn : (np.price * 10 ^ rd).natAbs < 2 ^ 127 := by
      rw [Int.natAbs_mul, Int.natAbs_pow, (rfl : (10 : Int).natAbs = 10)]
      calc np.price.natAbs * 10 ^ rd ≤ 2 ^ 100 := hnum
      _ < 2 ^ 127 := by norm_num
    have hwn : wrapI128 (np.price * 10 ^ rd) = np.price * 10 ^ rd := by
      apply wrapI128_eq_self
      · omega
      · omega
    have hbd : (dp.price * 10 ^ (-(np.exponent - dp.exponent)).toNat).natAbs
        < 2 ^ 127 := by
      rw [Int.natAbs_mul, Int.natAbs_pow, (rfl : (10 : Int).natAbs = 10)]
      have heq : dp.price.natAbs = dp.price.toNat := by omega
      rw [heq]
      exact hk
    have hwd : wrapI128 (dp.price * 10 ^ (-(np.exponent - dp.exponent)).toNat)
        = dp.price * 10 ^ (-(np.exponent - dp.exponent)).toNat := by
      apply wrapI128_eq_self
      · omega
      · omega
    have hdnz : ¬ (dp.price * 10 ^ (-(np.exponent - dp.exponent)).toNat = 0) :=
      (mul_pos hd (pow_pos (by norm_num) _)).ne'
    simp only [calculate_price_ratio, ratioSpec, hw32, if_neg (not_not_intro hd),
      if_neg hed, hwn, hwd, if_neg hdnz]
    set r := Int.tdiv (np.price * 10 ^ rd)
      (dp.price * 10 ^ (-(np.exponent - dp.exponent)).toNat) with hr
    constructor
    · split
      · rename_i h
        exact iff_of_true rfl (by omega)
      · rename_i h
        exact iff_of_false (by intro hc; cases hc) (by omega)
    · intro h0 h64
      rw [if_neg (not_not_intro h0)]
      congr 1
      omega

/-- C10 witness: 300 x 10 ^ -8 over 4 x 10 ^ -8 at 2 result decimals is
exactly 7500. -/
theorem C10_ratio_amended_witness :
    calculate_price_ratio ⟨300, 0, -8, 0⟩ ⟨4, 0, -8, 0⟩ 2 = .ok 7500 := by
  have h := (C10_ratio_amended ⟨300, 0, -8, 0⟩ ⟨4, 0, -8, 0⟩ 2 (by decide) (by decide)
    (by decide) (by decide) (by decide) (by decide)).2 (by decide) (by decide)
  exact h.trans (by decide)

end PythCore
